import Mathlib

/-!
Verification of the `observable` publish/subscribe library
(`src/include/observable/subject.hpp`).

The embedding models the subject as a heap of subscriber tables (association
lists from tag to callable collection) addressed by pointer indices, mirroring
the `std::shared_ptr<collection_map>` member `functions_`: allocating a table
appends a fresh entry to the store, and "publishing" a table means making its
index the `current` one.  Each operation additionally emits the list of
observable low-level events (mutex acquisitions, table publications, in-place
table mutations, pointer loads) in the order the source performs them, so that
properties about the copy-on-write protocol and about the lock-free read path
can be stated and settled.

Callables are represented by external identities (`Nat`); the effect of a
dispatch is the list of (callable, argument values) invocations in order.

The headers `detail/function_collection.hpp`, `detail/function_traits.hpp`
and `detail/handle.hpp` are not among the sources; their behaviour is
modelled from the specification and each such definition says so in its
doc comment.
-/

namespace Observable

/-- The passing mode of one C++ parameter, as far as the compatibility and
normalization rules distinguish modes: by value, by const reference, or by
mutable (non-const) reference. -/
inductive ParamMode where
  | byValue
  | byConstRef
  | byMutRef
deriving DecidableEq

/-- One parameter of a callable: an (opaque) type identifier plus its
passing mode. -/
structure Param where
  ty : Nat
  mode : ParamMode
deriving DecidableEq

/-- A callable signature: whether the return type is `void`, plus the
parameter list. -/
structure FnSig where
  retVoid : Bool
  params : List Param
deriving DecidableEq

/-- Modelled from the spec: `detail/function_traits.hpp` is not among the
sources.  Normalization of a single parameter strips the top-level
reference/qualifier distinctions, collapsing equivalent calling conventions
onto the canonical by-value form so that compatible argument lists resolve to
the same dispatch key. -/
def normalizeParam (p : Param) : Param := ⟨p.ty, ParamMode.byValue⟩

/-- Modelled from the spec: `function_traits<F>::normalized`, the canonical
signature used as the dispatch/storage key. -/
def FnSig.normalized (s : FnSig) : FnSig := ⟨s.retVoid, s.params.map normalizeParam⟩

/-- The two distinct compile-time diagnostics of `detail::check_compatibility`
(subject.hpp lines 74-87): a non-void return type, and a mutable-reference
parameter. -/
inductive CompatError where
  | returnsValue
  | mutableRefParam
deriving DecidableEq

/-- Modelled from the spec: the source phrases the reference check as
convertibility of `std::function<signature>` to `std::function<normalized>`
(`detail/function_traits.hpp` is not among the sources).  A wrapper taking
by-value parameters cannot forward to a callable demanding a mutable
reference, so the conversion succeeds exactly when no parameter is a
mutable (non-const) reference. -/
def fnConvertibleToNormalized (s : FnSig) : Bool :=
  s.params.all (fun p => !(p.mode == ParamMode.byMutRef))

/-- `detail::check_compatibility` (subject.hpp lines 74-87): two independent
static assertions, one per rejected property, each with its own diagnostic.
The result is the list of diagnostics that fire; an accepted callable
produces the empty list. -/
def check_compatibility (s : FnSig) : List CompatError :=
  (if s.retVoid then [] else [CompatError.returnsValue])
    ++ (if fnConvertibleToNormalized s then [] else [CompatError.mutableRefParam])

/-- One stored registration in a callable collection: the identifier assigned
at insertion, the normalized-signature bucket key, and the callable (by
external identity). -/
structure Entry where
  id : Nat
  sig : FnSig
  cb : Nat
deriving DecidableEq

/-- Modelled from the spec: `detail/function_collection.hpp` is not among the
sources.  A CallableCollection owns a mapping from (normalized signature,
identifier) to callable; identifiers are unique within the collection and
monotonically assigned; entries are kept in insertion order. -/
structure FunctionCollection where
  entries : List Entry
  nextId : Nat
deriving DecidableEq

/-- The empty callable collection. -/
def FunctionCollection.empty : FunctionCollection := ⟨[], 0⟩

/-- Modelled from the spec: `insert<Signature>(callable) -> Id` stores the
callable in the bucket for the signature at the next ordinal position and
returns a fresh, monotonically assigned identifier. -/
def FunctionCollection.insert (c : FunctionCollection) (sig : FnSig) (cb : Nat) :
    FunctionCollection × Nat :=
  (⟨c.entries ++ [⟨c.nextId, sig, cb⟩], c.nextId + 1⟩, c.nextId)

/-- Modelled from the spec: `remove(id)` is idempotent, searches all buckets
for the identifier and removes it when found; unknown identifiers are a
no-op. -/
def FunctionCollection.remove (c : FunctionCollection) (id : Nat) : FunctionCollection :=
  ⟨c.entries.filter (fun e => !(e.id == id)), c.nextId⟩

/-- Modelled from the spec: `call_all<Signature>(arguments...)` invokes every
callable stored under the signature, in insertion order, touching no other
bucket.  The result is the list of invoked callables in invocation order. -/
def FunctionCollection.call_all (c : FunctionCollection) (sig : FnSig) : List Nat :=
  (c.entries.filter (fun e => e.sig == sig)).map Entry.cb

/-- Identifier discipline of a collection: every stored identifier is below
the next one to be assigned. -/
def FunctionCollection.WF (c : FunctionCollection) : Prop :=
  ∀ e ∈ c.entries, e.id < c.nextId

/-- One mutation of a callable collection, for stating properties of every
reachable collection. -/
inductive CollOp where
  | ins (sig : FnSig) (cb : Nat)
  | rem (id : Nat)

/-- Apply one collection mutation. -/
def applyOp (c : FunctionCollection) : CollOp → FunctionCollection
  | CollOp.ins sig cb => (c.insert sig cb).1
  | CollOp.rem id => c.remove id

/-- Apply a sequence of collection mutations, oldest first. -/
def applyOps (ops : List CollOp) (c : FunctionCollection) : FunctionCollection :=
  ops.foldl applyOp c

/-- The subscriber table: `std::unordered_map<Tag, function_collection>`,
modelled as an association list with unique keys. -/
abbrev CollectionMap (Tag : Type) : Type := List (Tag × FunctionCollection)

/-- Table lookup, `functions->find(tag)`. -/
def lookupTag [DecidableEq Tag] : CollectionMap Tag → Tag → Option FunctionCollection
  | [], _ => none
  | p :: rest, tag => if p.1 = tag then some p.2 else lookupTag rest tag

/-- Table update, `(*functions_)[tag] = collection`: replaces the collection
stored under the tag, creating the entry when absent (as `operator[]`
does). -/
def setTag [DecidableEq Tag] : CollectionMap Tag → Tag → FunctionCollection → CollectionMap Tag
  | [], tag, c => [(tag, c)]
  | p :: rest, tag, c => if p.1 = tag then (tag, c) :: rest else p :: setTag rest tag c

/-- Identifier discipline for every collection of a table. -/
def TableWF {Tag : Type} (t : CollectionMap Tag) : Prop :=
  ∀ p ∈ t, FunctionCollection.WF p.2

/-- The subject's shared state: a store of allocated subscriber tables
(index = pointer identity of the `shared_ptr`) and the index of the table
currently published through the member `functions_`. -/
structure Heap (Tag : Type) where
  store : List (CollectionMap Tag)
  current : Nat
deriving DecidableEq

/-- The table currently published as `functions_`. -/
def Heap.curTable {Tag : Type} (h : Heap Tag) : CollectionMap Tag :=
  h.store.getD h.current []

/-- A fresh subject: one allocated, empty subscriber table, published. -/
def Heap.init {Tag : Type} : Heap Tag := ⟨[[]], 0⟩

/-- The low-level events an operation performs, in program order: acquiring
the mutation mutex, publishing a table pointer as current, mutating a table
in place through a pointer, and loading the current table pointer. -/
inductive Event where
  | lock
  | publish (p : Nat)
  | mutate (p : Nat)
  | load (p : Nat)
deriving DecidableEq

/-- `detail::snapshot` (subject.hpp lines 99-105): under the mutex, allocate
a copy of the current table and assign it to `functions_` — i.e. publish the
fresh copy as the new current table. -/
def snapshotOp {Tag : Type} (h : Heap Tag) : Heap Tag × List Event :=
  (⟨h.store ++ [h.curTable], h.store.length⟩,
   [Event.lock, Event.publish h.store.length])

/-- Modelled from the spec: `detail/handle.hpp` is not among the sources.  A
subscription token holds the captured tag and assigned identifier of its
registration, plus an armed flag: the token runs its removal action at most
once. -/
structure Token (Tag : Type) where
  tag : Tag
  id : Nat
  armed : Bool
deriving DecidableEq

/-- The body of `subject::subscribe(tag, function)` (subject.hpp lines
135-153) past the compile-time compatibility check: take a snapshot (which
publishes the clone), then obtain or create the collection for the tag in
the now-current clone, insert the callable under its normalized signature —
an in-place mutation of the table `functions_` points to — and hand back a
token capturing the tag and the assigned identifier. -/
def subscribeBody {Tag : Type} [DecidableEq Tag] (h : Heap Tag) (tag : Tag)
    (sig : FnSig) (cb : Nat) : Heap Tag × Token Tag × List Event :=
  let s := snapshotOp h
  let h1 := s.1
  let tbl := h1.curTable
  let coll := (lookupTag tbl tag).getD FunctionCollection.empty
  let r := coll.insert sig.normalized cb
  let tbl2 := setTag tbl tag r.1
  (⟨h1.store.set h1.current tbl2, h1.current⟩, ⟨tag, r.2, true⟩,
   s.2 ++ [Event.mutate h1.current])

/-- `subject::subscribe(tag, function)` (subject.hpp lines 135-153): the
compile-time `detail::check_compatibility` guard, then the subscription
body.  A callable that fails the check can never be registered; this is
modelled by returning the diagnostics instead of running the body. -/
def subscribeTagged {Tag : Type} [DecidableEq Tag] (h : Heap Tag) (tag : Tag)
    (sig : FnSig) (cb : Nat) :
    Except (List CompatError) (Heap Tag × Token Tag × List Event) :=
  match check_compatibility sig with
  | [] => Except.ok (subscribeBody h tag sig cb)
  | e :: es => Except.error (e :: es)

/-- `subject::subscribe(function)` (subject.hpp lines 127-133): delegates to
the tagged overload at the tag type's default value (`static Tag const
no_tag { }`). -/
def subscribeUntagged {Tag : Type} [DecidableEq Tag] [Inhabited Tag] (h : Heap Tag)
    (sig : FnSig) (cb : Nat) :
    Except (List CompatError) (Heap Tag × Token Tag × List Event) :=
  subscribeTagged h (default : Tag) sig cb

/-- `detail::unsubscribe` (subject.hpp lines 107-124): promote the weak
reference to the mutex; when the subject is already destroyed this fails and
the call returns immediately.  Otherwise take a snapshot (publishing a fresh
clone), look the tag up in the clone, and when found remove the identifier
from its collection — an in-place mutation of the published clone. -/
def unsubscribeOp {Tag : Type} [DecidableEq Tag] (alive : Bool) (h : Heap Tag)
    (tag : Tag) (id : Nat) : Heap Tag × List Event :=
  if alive then
    let s := snapshotOp h
    let h1 := s.1
    let tbl := h1.curTable
    match lookupTag tbl tag with
    | none => (h1, s.2)
    | some coll =>
        let tbl2 := setTag tbl tag (coll.remove id)
        (⟨h1.store.set h1.current tbl2, h1.current⟩, s.2 ++ [Event.mutate h1.current])
  else (h, [])

/-- Modelled from the spec: the handle runs the captured removal action at
most once; afterwards (and on a second call) it is a silent no-op. -/
def Token.unsubscribe {Tag : Type} [DecidableEq Tag] (t : Token Tag) (alive : Bool)
    (h : Heap Tag) : Token Tag × Heap Tag × List Event :=
  if t.armed then
    let r := unsubscribeOp alive h t.tag t.id
    (⟨t.tag, t.id, false⟩, r.1, r.2)
  else (t, h, [])

/-- `subject::notify_tagged` (subject.hpp lines 163-173): load the currently
published table pointer (no mutex), look the tag up; when absent return with
no effect.  When present, `detail::call` (lines 89-97) dispatches to the
bucket keyed by the normalized signature derived from the argument types,
yielding the invocations (callable, argument values) in insertion order. -/
def notifyTagged {Tag : Type} [DecidableEq Tag] (h : Heap Tag) (tag : Tag)
    (argParams : List Param) (vals : List Nat) :
    Heap Tag × List (Nat × List Nat) × List Event :=
  match lookupTag h.curTable tag with
  | none => (h, [], [Event.load h.current])
  | some coll =>
      let key := FnSig.normalized ⟨true, argParams⟩
      (h, (coll.call_all key).map (fun cb => (cb, vals)), [Event.load h.current])

/-- `subject::notify_untagged` (subject.hpp lines 155-161): delegates to the
tagged overload at the tag type's default value. -/
def notifyUntagged {Tag : Type} [DecidableEq Tag] [Inhabited Tag] (h : Heap Tag)
    (argParams : List Param) (vals : List Nat) :
    Heap Tag × List (Nat × List Nat) × List Event :=
  notifyTagged h (default : Tag) argParams vals

/-- Scans an event trace, tracking which pointer is published as current,
and reports whether some mutation targets the pointer that is current at the
moment the mutation happens. -/
def mutatesCurrent : Nat → List Event → Bool
  | _, [] => false
  | _, Event.publish p :: rest => mutatesCurrent p rest
  | cur, Event.mutate p :: rest => (p == cur) || mutatesCurrent cur rest
  | cur, _ :: rest => mutatesCurrent cur rest

/-! ### Helper lemmas -/

theorem getD_concat_length {α : Type} (l : List α) (a d : α) :
    (l ++ [a]).getD l.length d = a := by
  induction l with
  | nil => rfl
  | cons x xs ih => simp [ih]

theorem getD_concat_lt {α : Type} (l : List α) (a d : α) (p : Nat)
    (hp : p < l.length) : (l ++ [a]).getD p d = l.getD p d := by
  induction l generalizing p with
  | nil => cases hp
  | cons x xs ih =>
      cases p with
      | zero => rfl
      | succ q => exact ih q (Nat.lt_of_succ_lt_succ hp)

theorem set_concat_length {α : Type} (l : List α) (a b : α) :
    (l ++ [a]).set l.length b = l ++ [b] := by
  induction l with
  | nil => rfl
  | cons x xs ih => simp [ih]

theorem curTable_concat {Tag : Type} (st : List (CollectionMap Tag))
    (t : CollectionMap Tag) : (Heap.mk (st ++ [t]) st.length).curTable = t :=
  getD_concat_length st t []

theorem lookupTag_setTag_self {Tag : Type} [DecidableEq Tag]
    (t : CollectionMap Tag) (tag : Tag) (c : FunctionCollection) :
    lookupTag (setTag t tag c) tag = some c := by
  induction t with
  | nil => simp [setTag, lookupTag]
  | cons p rest ih =>
      by_cases hp : p.1 = tag
      · simp [setTag, lookupTag, hp]
      · simp [setTag, lookupTag, hp, ih]

theorem lookupTag_wf {Tag : Type} [DecidableEq Tag]
    (t : CollectionMap Tag) (tag : Tag) (c : FunctionCollection)
    (hwf : TableWF t) (hl : lookupTag t tag = some c) : c.WF := by
  induction t with
  | nil => simp [lookupTag] at hl
  | cons p rest ih =>
      by_cases hp : p.1 = tag
      · simp [lookupTag, hp] at hl
        exact hl ▸ hwf p (List.mem_cons_self p rest)
      · simp [lookupTag, hp] at hl
        exact ih (fun q hq => hwf q (List.mem_cons_of_mem p hq)) hl

theorem filter_fresh_id (c : FunctionCollection) (s : FnSig) (cb : Nat)
    (hwf : c.WF) :
    (c.entries ++ [(⟨c.nextId, s, cb⟩ : Entry)]).filter
        (fun e => !(e.id == c.nextId)) = c.entries := by
  rw [List.filter_append]
  have h1 : c.entries.filter (fun e => !(e.id == c.nextId)) = c.entries := by
    apply List.filter_eq_self.mpr
    intro e he
    have := hwf e he
    simp [Nat.ne_of_lt this]
  have h2 : ([(⟨c.nextId, s, cb⟩ : Entry)]).filter (fun e => !(e.id == c.nextId))
      = [] := by simp
  rw [h1, h2, List.append_nil]

/-- The result of one `subscribe` body spelled out: the clone of the current
table, mutated by the insertion, sits at the fresh pointer `h.store.length`,
which is also the published current pointer; the token carries the fresh
identifier of the collection under the tag; the events are
lock, publish clone, mutate clone — in that order. -/
theorem subscribeBody_eq {Tag : Type} [DecidableEq Tag] (h : Heap Tag) (tag : Tag)
    (sig : FnSig) (cb : Nat) :
    subscribeBody h tag sig cb =
      (⟨h.store ++ [setTag h.curTable tag
          (((lookupTag h.curTable tag).getD FunctionCollection.empty).insert
            sig.normalized cb).1], h.store.length⟩,
       ⟨tag, ((lookupTag h.curTable tag).getD FunctionCollection.empty).nextId, true⟩,
       [Event.lock, Event.publish h.store.length, Event.mutate h.store.length]) := by
  simp [subscribeBody, snapshotOp, curTable_concat, set_concat_length,
    FunctionCollection.insert]

/-- The result of a live `unsubscribe` action when the tag is present in the
clone: the clone, with the identifier removed from the tag's collection, sits
at the fresh pointer and is published; events are lock, publish, mutate. -/
theorem unsubscribeOp_eq_found {Tag : Type} [DecidableEq Tag] (h : Heap Tag)
    (tag : Tag) (id : Nat) (coll : FunctionCollection)
    (hl : lookupTag h.curTable tag = some coll) :
    unsubscribeOp true h tag id =
      (⟨h.store ++ [setTag h.curTable tag (coll.remove id)], h.store.length⟩,
       [Event.lock, Event.publish h.store.length, Event.mutate h.store.length]) := by
  simp [unsubscribeOp, snapshotOp, curTable_concat, hl, set_concat_length]

/-- A live `unsubscribe` action when the tag is absent from the clone: the
clone is still allocated and published, but nothing is removed and no table
is mutated. -/
theorem unsubscribeOp_eq_none {Tag : Type} [DecidableEq Tag] (h : Heap Tag)
    (tag : Tag) (id : Nat) (hl : lookupTag h.curTable tag = none) :
    unsubscribeOp true h tag id =
      (⟨h.store ++ [h.curTable], h.store.length⟩,
       [Event.lock, Event.publish h.store.length]) := by
  simp [unsubscribeOp, snapshotOp, curTable_concat, hl]

/-! ### Claim theorems -/

/-- C1, counterexample: the claim that no subscribe operation ever mutates a
table that has been published as current is false of the code.  On a fresh
subject, one subscribe emits lock, publish of the fresh clone pointer, and
then a mutation of that very pointer — i.e. `detail::snapshot` assigns the
clone to `functions_` (publishing it) before `subscribe` inserts into it, so
the insertion mutates the table that is current at that moment. -/
theorem claim1_cow_counterexample :
    (subscribeBody (Heap.init : Heap Nat) 0 ⟨true, []⟩ 7).2.2
        = [Event.lock, Event.publish 1, Event.mutate 1]
      ∧ mutatesCurrent (Heap.init : Heap Nat).current
          (subscribeBody (Heap.init : Heap Nat) 0 ⟨true, []⟩ 7).2.2 = true := by
  constructor
  · rfl
  · rfl

/-- C1, amended: subscribe and unsubscribe never mutate any table that was
already allocated when the operation began — in particular never the table
that was current at that point, which is the table any earlier notify could
hold.  Mutation clones the current table, publishes the clone wholesale, and
then mutates only the freshly allocated clone in place. -/
theorem claim1_cow_amended {Tag : Type} [DecidableEq Tag] (h : Heap Tag)
    (tag : Tag) (sig : FnSig) (cb : Nat) (id p : Nat)
    (hp : p < h.store.length) :
    ((subscribeBody h tag sig cb).1.store.getD p [] = h.store.getD p []
      ∧ (subscribeBody h tag sig cb).2.2 =
          [Event.lock, Event.publish h.store.length, Event.mutate h.store.length])
    ∧ ((unsubscribeOp true h tag id).1.store.getD p [] = h.store.getD p []
      ∧ Event.mutate p ∉ (unsubscribeOp true h tag id).2) := by
  refine ⟨⟨?_, ?_⟩, ?_, ?_⟩
  · rw [subscribeBody_eq]
    exact getD_concat_lt h.store _ [] p hp
  · rw [subscribeBody_eq]
  · cases hl : lookupTag h.curTable tag with
    | none =>
        rw [unsubscribeOp_eq_none h tag id hl]
        exact getD_concat_lt h.store _ [] p hp
    | some coll =>
        rw [unsubscribeOp_eq_found h tag id coll hl]
        exact getD_concat_lt h.store _ [] p hp
  · cases hl : lookupTag h.curTable tag with
    | none =>
        rw [unsubscribeOp_eq_none h tag id hl]
        simp
    | some coll =>
        rw [unsubscribeOp_eq_found h tag id coll hl]
        simp [Nat.ne_of_lt hp]

/-- C1, witness for the amended theorem at a concrete state. -/
theorem claim1_cow_amended_witness :
    0 < (Heap.init : Heap Nat).store.length
      ∧ (((subscribeBody (Heap.init : Heap Nat) 3 ⟨true, []⟩ 5).1.store.getD 0 []
            = (Heap.init : Heap Nat).store.getD 0 []
          ∧ (subscribeBody (Heap.init : Heap Nat) 3 ⟨true, []⟩ 5).2.2 =
              [Event.lock, Event.publish (Heap.init : Heap Nat).store.length,
               Event.mutate (Heap.init : Heap Nat).store.length])
        ∧ ((unsubscribeOp true (Heap.init : Heap Nat) 3 9).1.store.getD 0 []
              = (Heap.init : Heap Nat).store.getD 0 []
          ∧ Event.mutate 0 ∉ (unsubscribeOp true (Heap.init : Heap Nat) 3 9).2)) :=
  ⟨by decide, claim1_cow_amended (Heap.init : Heap Nat) 3 ⟨true, []⟩ 5 9 0 (by decide)⟩

/-- C3: notifying a tag that is absent from the current table returns with no
effect — the state is unchanged, no observer is invoked, and the only event
is the pointer load. -/
theorem claim3_unknown_tag_noop {Tag : Type} [DecidableEq Tag] (h : Heap Tag)
    (tag : Tag) (ap : List Param) (vals : List Nat)
    (hl : lookupTag h.curTable tag = none) :
    notifyTagged h tag ap vals = (h, [], [Event.load h.current]) := by
  simp [notifyTagged, hl]

/-- C3, witness at a concrete state. -/
theorem claim3_unknown_tag_noop_witness :
    lookupTag (Heap.init : Heap Nat).curTable 4 = none
      ∧ notifyTagged (Heap.init : Heap Nat) 4 [] [1, 2]
          = ((Heap.init : Heap Nat), [], [Event.load (Heap.init : Heap Nat).current]) :=
  ⟨by decide, claim3_unknown_tag_noop (Heap.init : Heap Nat) 4 [] [1, 2] (by decide)⟩

/-- C4: the untagged overloads delegate to the tagged ones at the tag type's
default value, so their behaviour coincides on every state, callback and
argument list. -/
theorem claim4_untagged_default_tag {Tag : Type} [DecidableEq Tag] [Inhabited Tag]
    (h : Heap Tag) (sig : FnSig) (cb : Nat) (ap : List Param) (vals : List Nat) :
    subscribeUntagged h sig cb = subscribeTagged h (default : Tag) sig cb
      ∧ notifyUntagged h ap vals = notifyTagged h (default : Tag) ap vals :=
  ⟨rfl, rfl⟩

/-- C6: when the owning subject has been destroyed (the weak reference to its
mutex no longer promotes), the removal action returns immediately — the heap
is untouched and no lock, publish or mutate event happens — and the token's
unsubscribe likewise leaves the heap unchanged and emits no event. -/
theorem claim6_unsubscribe_after_destruction {Tag : Type} [DecidableEq Tag]
    (h : Heap Tag) (tag : Tag) (id : Nat) (t : Token Tag) :
    unsubscribeOp false h tag id = (h, [])
      ∧ (Token.unsubscribe t false h).2.1 = h
      ∧ (Token.unsubscribe t false h).2.2 = [] := by
  refine ⟨by simp [unsubscribeOp], ?_, ?_⟩ <;>
    by_cases ha : t.armed <;> simp [Token.unsubscribe, ha, unsubscribeOp]

/-- C9: notify performs no mutex acquisition on any invocation — its event
trace is exactly one load of the currently published table pointer — and it
leaves the subject state unchanged. -/
theorem claim9_notify_lock_free {Tag : Type} [DecidableEq Tag] (h : Heap Tag)
    (tag : Tag) (ap : List Param) (vals : List Nat) :
    Event.lock ∉ (notifyTagged h tag ap vals).2.2
      ∧ (notifyTagged h tag ap vals).2.2 = [Event.load h.current]
      ∧ (notifyTagged h tag ap vals).1 = h := by
  cases hl : lookupTag h.curTable tag <;> simp [notifyTagged, hl]

/-- C10: whether or not any observer is invoked, notify leaves the subscriber
state identical — the published table reference is the same and every
tag-to-collection entry is unchanged.  (Observers are inert data in this
model, matching the proviso that they do not themselves mutate the
subject.) -/
theorem claim10_notify_frame {Tag : Type} [DecidableEq Tag] (h : Heap Tag)
    (tag : Tag) (ap : List Param) (vals : List Nat) :
    (notifyTagged h tag ap vals).1 = h
      ∧ ∀ t2 : Tag, lookupTag (notifyTagged h tag ap vals).1.curTable t2
          = lookupTag h.curTable t2 := by
  cases hl : lookupTag h.curTable tag <;> simp [notifyTagged, hl]

/-- C2: on a fresh subject, subscribing a compatible callback under a tag and
then notifying the same tag with an argument list whose normalized signature
matches the callback's invokes the callback exactly once, with exactly those
argument values: the invocation list of the notify is the singleton
`[(cb, vals)]`.  The subscription itself is accepted (the compatibility
check passes). -/
theorem claim2_subscribe_notify_once {Tag : Type} [DecidableEq Tag] (tag : Tag)
    (sig : FnSig) (cb : Nat) (ap : List Param) (vals : List Nat)
    (hc : check_compatibility sig = [])
    (hm : FnSig.normalized ⟨true, ap⟩ = sig.normalized) :
    subscribeTagged (Heap.init : Heap Tag) tag sig cb
        = Except.ok (subscribeBody (Heap.init : Heap Tag) tag sig cb)
      ∧ (notifyTagged (subscribeBody (Heap.init : Heap Tag) tag sig cb).1
          tag ap vals).2.1 = [(cb, vals)] := by
  constructor
  · simp [subscribeTagged, hc]
  · rw [subscribeBody_eq]
    simp [notifyTagged, Heap.init, Heap.curTable, lookupTag, setTag,
      FunctionCollection.empty, FunctionCollection.insert,
      FunctionCollection.call_all, hm]

/-- C2, witness: a const-reference parameter callback notified with a
by-value argument of the same type resolves to the same bucket and fires
once with the given value. -/
theorem claim2_subscribe_notify_once_witness :
    check_compatibility ⟨true, [⟨5, ParamMode.byConstRef⟩]⟩ = []
      ∧ FnSig.normalized ⟨true, [⟨5, ParamMode.byValue⟩]⟩
          = FnSig.normalized ⟨true, [⟨5, ParamMode.byConstRef⟩]⟩
      ∧ (subscribeTagged (Heap.init : Heap Nat) 3 ⟨true, [⟨5, ParamMode.byConstRef⟩]⟩ 7
            = Except.ok (subscribeBody (Heap.init : Heap Nat) 3
                ⟨true, [⟨5, ParamMode.byConstRef⟩]⟩ 7)
          ∧ (notifyTagged (subscribeBody (Heap.init : Heap Nat) 3
                ⟨true, [⟨5, ParamMode.byConstRef⟩]⟩ 7).1
              3 [⟨5, ParamMode.byValue⟩] [42]).2.1 = [(7, [42])]) :=
  ⟨by decide, by decide,
   claim2_subscribe_notify_once 3 ⟨true, [⟨5, ParamMode.byConstRef⟩]⟩ 7
     [⟨5, ParamMode.byValue⟩] [42] (by decide) (by decide)⟩

/-- C8: a callback with a non-void return type triggers the return-type
diagnostic, a callback with a mutable-reference parameter triggers the
reference-parameter diagnostic (the two diagnostics are distinct), and any
callback with a non-empty diagnostic list is rejected by subscribe before it
can ever be registered: subscribe returns the diagnostics and the state is
not touched. -/
theorem claim8_compat_rejection {Tag : Type} [DecidableEq Tag] (h : Heap Tag)
    (tag : Tag) (sig : FnSig) (cb : Nat) :
    (sig.retVoid = false → CompatError.returnsValue ∈ check_compatibility sig)
      ∧ ((∃ p ∈ sig.params, p.mode = ParamMode.byMutRef) →
          CompatError.mutableRefParam ∈ check_compatibility sig)
      ∧ (check_compatibility sig ≠ [] →
          subscribeTagged h tag sig cb = Except.error (check_compatibility sig)) := by
  refine ⟨?_, ?_, ?_⟩
  · intro hr
    simp [check_compatibility, hr]
  · intro href
    have hconv : fnConvertibleToNormalized sig = false := by
      obtain ⟨p, hp, hm⟩ := href
      simp [fnConvertibleToNormalized, List.all_eq_true]
      exact ⟨p, hp, by simp [hm]⟩
    simp [check_compatibility, hconv]
  · intro hne
    cases he : check_compatibility sig with
    | nil => exact absurd he hne
    | cons e es => simp [subscribeTagged, he]

/-- C8, witness: a signature that both returns a value and takes a mutable
reference produces both diagnostics and is rejected by subscribe. -/
theorem claim8_compat_rejection_witness :
    CompatError.returnsValue ∈ check_compatibility ⟨false, [⟨2, ParamMode.byMutRef⟩]⟩
      ∧ CompatError.mutableRefParam ∈
          check_compatibility ⟨false, [⟨2, ParamMode.byMutRef⟩]⟩
      ∧ subscribeTagged (Heap.init : Heap Nat) 0 ⟨false, [⟨2, ParamMode.byMutRef⟩]⟩ 7
          = Except.error (check_compatibility ⟨false, [⟨2, ParamMode.byMutRef⟩]⟩) :=
  ⟨(claim8_compat_rejection (Heap.init : Heap Nat) 0
      ⟨false, [⟨2, ParamMode.byMutRef⟩]⟩ 7).1 rfl,
   (claim8_compat_rejection (Heap.init : Heap Nat) 0
      ⟨false, [⟨2, ParamMode.byMutRef⟩]⟩ 7).2.1
     ⟨⟨2, ParamMode.byMutRef⟩, by decide, rfl⟩,
   (claim8_compat_rejection (Heap.init : Heap Nat) 0
      ⟨false, [⟨2, ParamMode.byMutRef⟩]⟩ 7).2.2 (by decide)⟩

/-- Collection invariant: identifier discipline plus strictly increasing
identifiers along the stored order, i.e. stored order is chronological
insertion order. -/
def CollInv (c : FunctionCollection) : Prop :=
  c.WF ∧ List.Chain' (· < ·) (c.entries.map Entry.id)

theorem collInv_empty : CollInv FunctionCollection.empty := by
  constructor
  · intro e he
    simp [FunctionCollection.empty] at he
  · simp [FunctionCollection.empty]

theorem collInv_insert (c : FunctionCollection) (sig : FnSig) (cb : Nat)
    (hinv : CollInv c) : CollInv (c.insert sig cb).1 := by
  obtain ⟨hwf, hch⟩ := hinv
  constructor
  · intro e he
    simp [FunctionCollection.insert] at he
    cases he with
    | inl h => exact Nat.lt_succ_of_lt (hwf e h)
    | inr h => simp [h, FunctionCollection.insert]
  · simp only [FunctionCollection.insert, List.map_append]
    rw [List.chain'_append]
    refine ⟨hch, by simp, ?_⟩
    intro x hx y hy
    simp at hy
    subst hy
    have hx2 : x ∈ c.entries.map Entry.id := by
      obtain ⟨hne, hx3⟩ := List.mem_getLast?_eq_getLast hx
      rw [hx3]
      exact List.getLast_mem hne
    obtain ⟨e, he, hid⟩ := List.mem_map.mp hx2
    exact hid ▸ hwf e he

theorem collInv_remove (c : FunctionCollection) (id : Nat)
    (hinv : CollInv c) : CollInv (c.remove id) := by
  obtain ⟨hwf, hch⟩ := hinv
  constructor
  · intro e he
    exact hwf e (List.mem_of_mem_filter he)
  · exact List.Chain'.sublist hch
      (List.Sublist.map Entry.id (List.filter_sublist c.entries))

theorem collInv_applyOps (ops : List CollOp) (c : FunctionCollection)
    (hinv : CollInv c) : CollInv (applyOps ops c) := by
  induction ops generalizing c with
  | nil => exact hinv
  | cons op rest ih =>
      cases op with
      | ins sig cb => exact ih _ (collInv_insert c sig cb hinv)
      | rem id => exact ih _ (collInv_remove c id hinv)

/-- Inserting dispatches last: the bucket for the signature after an
insertion is the old bucket with the new callable appended. -/
theorem call_all_insert (c : FunctionCollection) (sig : FnSig) (cb : Nat) :
    ((c.insert sig cb).1).call_all sig = c.call_all sig ++ [cb] := by
  simp [FunctionCollection.insert, FunctionCollection.call_all, List.filter_append]

/-- C7: in every collection reachable from the empty one, the stored
identifiers strictly increase along the stored (dispatch) order — dispatch
is chronological insertion order; a new insertion (in particular a
re-subscription after a removal among the operations) receives an
identifier distinct from every stored one and the last ordinal position in
its signature bucket; and a removal never reorders the surviving dispatch
sequence. -/
theorem claim7_insertion_order (ops : List CollOp) (sig : FnSig) (cb id : Nat) :
    List.Chain' (· < ·) ((applyOps ops FunctionCollection.empty).entries.map Entry.id)
      ∧ ((applyOps ops FunctionCollection.empty).insert sig cb).1.call_all sig
          = (applyOps ops FunctionCollection.empty).call_all sig ++ [cb]
      ∧ ((applyOps ops FunctionCollection.empty).insert sig cb).2
          ∉ (applyOps ops FunctionCollection.empty).entries.map Entry.id
      ∧ (((applyOps ops FunctionCollection.empty).remove id).call_all sig).Sublist
          ((applyOps ops FunctionCollection.empty).call_all sig) := by
  obtain ⟨hwf, hch⟩ := collInv_applyOps ops FunctionCollection.empty collInv_empty
  refine ⟨hch, call_all_insert _ sig cb, ?_, ?_⟩
  · intro hmem
    obtain ⟨e, he, hid⟩ := List.mem_map.mp hmem
    have hlt := hwf e he
    simp [FunctionCollection.insert] at hid
    omega
  · exact List.Sublist.map Entry.cb
      (List.Sublist.filter _ (List.filter_sublist _))

/-- C5: after the token returned by subscribe runs its unsubscribe, a notify
with the formerly matching tag and argument types produces exactly the
invocations it produced before the subscription existed — in particular, the
removed registration is no longer invoked — and running the token's
unsubscribe a second time changes nothing at all: same token, same heap, no
events. -/
theorem claim5_unsubscribe_then_notify {Tag : Type} [DecidableEq Tag]
    (h : Heap Tag) (tag : Tag) (sig : FnSig) (cb : Nat) (ap : List Param)
    (vals : List Nat) (hwf : TableWF h.curTable) :
    (notifyTagged
        (Token.unsubscribe (subscribeBody h tag sig cb).2.1 true
          (subscribeBody h tag sig cb).1).2.1 tag ap vals).2.1
      = (notifyTagged h tag ap vals).2.1
    ∧ Token.unsubscribe
        (Token.unsubscribe (subscribeBody h tag sig cb).2.1 true
          (subscribeBody h tag sig cb).1).1 true
        (Token.unsubscribe (subscribeBody h tag sig cb).2.1 true
          (subscribeBody h tag sig cb).1).2.1
      = ((Token.unsubscribe (subscribeBody h tag sig cb).2.1 true
            (subscribeBody h tag sig cb).1).1,
         (Token.unsubscribe (subscribeBody h tag sig cb).2.1 true
            (subscribeBody h tag sig cb).1).2.1, []) := by
  have wfcoll : ((lookupTag h.curTable tag).getD FunctionCollection.empty).WF := by
    cases hl0 : lookupTag h.curTable tag with
    | none =>
        intro e he
        simp [FunctionCollection.empty] at he
    | some c => exact lookupTag_wf h.curTable tag c hwf hl0
  rw [subscribeBody_eq]
  set coll := (lookupTag h.curTable tag).getD FunctionCollection.empty with hcoll
  set c1 := (coll.insert sig.normalized cb).1 with hc1
  set tbl2 := setTag h.curTable tag c1 with htbl2
  dsimp only
  have harm : Token.unsubscribe (⟨tag, coll.nextId, true⟩ : Token Tag) true
      (⟨h.store ++ [tbl2], h.store.length⟩ : Heap Tag)
      = (⟨tag, coll.nextId, false⟩,
         unsubscribeOp true (⟨h.store ++ [tbl2], h.store.length⟩ : Heap Tag)
           tag coll.nextId) := rfl
  rw [harm]
  have hcur1 : (⟨h.store ++ [tbl2], h.store.length⟩ : Heap Tag).curTable = tbl2 :=
    curTable_concat h.store tbl2
  have hl1 : lookupTag (⟨h.store ++ [tbl2], h.store.length⟩ : Heap Tag).curTable tag
      = some c1 := by
    rw [hcur1, htbl2]
    exact lookupTag_setTag_self h.curTable tag c1
  rw [unsubscribeOp_eq_found (⟨h.store ++ [tbl2], h.store.length⟩ : Heap Tag)
    tag coll.nextId c1 hl1]
  dsimp only
  rw [hcur1]
  have hrem : c1.remove coll.nextId
      = (⟨coll.entries, coll.nextId + 1⟩ : FunctionCollection) := by
    rw [hc1]
    simp only [FunctionCollection.insert, FunctionCollection.remove]
    rw [filter_fresh_id coll sig.normalized cb wfcoll]
  rw [hrem]
  constructor
  · have hcur2 : (⟨(h.store ++ [tbl2])
        ++ [setTag tbl2 tag (⟨coll.entries, coll.nextId + 1⟩ : FunctionCollection)],
        (h.store ++ [tbl2]).length⟩ : Heap Tag).curTable
        = setTag tbl2 tag (⟨coll.entries, coll.nextId + 1⟩ : FunctionCollection) :=
      curTable_concat _ _
    simp only [notifyTagged, hcur2, lookupTag_setTag_self]
    cases hl0 : lookupTag h.curTable tag with
    | none =>
        rw [hl0] at hcoll
        simp only [Option.getD_none] at hcoll
        simp [hcoll, FunctionCollection.empty, FunctionCollection.call_all]
    | some c =>
        rw [hl0] at hcoll
        simp only [Option.getD_some] at hcoll
        simp [hcoll, FunctionCollection.call_all]
  · rfl

/-- C5, witness at a concrete state: one subscription on a fresh subject,
unsubscribed, then notified. -/
theorem claim5_unsubscribe_then_notify_witness :
    TableWF (Heap.init : Heap Nat).curTable
      ∧ ((notifyTagged
            (Token.unsubscribe
              (subscribeBody (Heap.init : Heap Nat) 2 ⟨true, [⟨5, ParamMode.byValue⟩]⟩ 7).2.1
              true
              (subscribeBody (Heap.init : Heap Nat) 2 ⟨true, [⟨5, ParamMode.byValue⟩]⟩ 7).1).2.1
            2 [⟨5, ParamMode.byValue⟩] [11]).2.1
          = (notifyTagged (Heap.init : Heap Nat) 2 [⟨5, ParamMode.byValue⟩] [11]).2.1
        ∧ Token.unsubscribe
            (Token.unsubscribe
              (subscribeBody (Heap.init : Heap Nat) 2 ⟨true, [⟨5, ParamMode.byValue⟩]⟩ 7).2.1
              true
              (subscribeBody (Heap.init : Heap Nat) 2 ⟨true, [⟨5, ParamMode.byValue⟩]⟩ 7).1).1
            true
            (Token.unsubscribe
              (subscribeBody (Heap.init : Heap Nat) 2 ⟨true, [⟨5, ParamMode.byValue⟩]⟩ 7).2.1
              true
              (subscribeBody (Heap.init : Heap Nat) 2 ⟨true, [⟨5, ParamMode.byValue⟩]⟩ 7).1).2.1
          = ((Token.unsubscribe
                (subscribeBody (Heap.init : Heap Nat) 2 ⟨true, [⟨5, ParamMode.byValue⟩]⟩ 7).2.1
                true
                (subscribeBody (Heap.init : Heap Nat) 2 ⟨true, [⟨5, ParamMode.byValue⟩]⟩ 7).1).1,
             (Token.unsubscribe
                (subscribeBody (Heap.init : Heap Nat) 2 ⟨true, [⟨5, ParamMode.byValue⟩]⟩ 7).2.1
                true
                (subscribeBody (Heap.init : Heap Nat) 2 ⟨true, [⟨5, ParamMode.byValue⟩]⟩ 7).1).2.1,
             [])) :=
  ⟨by intro p hp; simp [Heap.init, Heap.curTable] at hp,
   claim5_unsubscribe_then_notify (Heap.init : Heap Nat) 2
     ⟨true, [⟨5, ParamMode.byValue⟩]⟩ 7 [⟨5, ParamMode.byValue⟩] [11]
     (by intro p hp; simp [Heap.init, Heap.curTable] at hp)⟩

end Observable
